import Mathlib

/-!
Verification development for the HiveCAD release script (`release.py`).

The script's pure core (version parsing, formatting, increment) is embedded
directly as Lean functions over `List Char` / `String`.  The orchestrator
(`main` and the git helpers) is embedded as explicit functions from an
environment record `Env` — holding the outcomes of file checks, user
answers at the interactive prompts, and the success of each external
command — to an exit code together with a trace of the observable effects
(prompts shown, git commands run, file writes attempted).
-/

namespace HiveCAD

/-- `version_str.lstrip("v")`: Python's `lstrip` removes *every* leading
character from the given set, here all leading `'v'` characters. -/
def lstripV (cs : List Char) : List Char := cs.dropWhile (fun c => c == 'v')

/-- Python `version_str.split(".")` on the character list: split at every
`'.'`, keeping empty segments; the empty string yields one empty segment. -/
def splitDot : List Char → List (List Char)
  | [] => [[]]
  | c :: rest =>
    if c = '.' then [] :: splitDot rest
    else
      match splitDot rest with
      | [] => [[c]]
      | s :: ss => (c :: s) :: ss

/-- Strip leading and trailing whitespace, as Python `int(str)` does before
reading the numeral. -/
def stripWs (cs : List Char) : List Char :=
  ((cs.dropWhile Char.isWhitespace).reverse.dropWhile Char.isWhitespace).reverse

/-- Tail of a Python integer numeral after its first digit: further digits,
with single underscores allowed only between digits (an underscore must be
followed by a digit, and may not end the numeral). -/
def digitTail : List Char → Bool
  | [] => true
  | [c] => c.isDigit
  | c :: d :: rest =>
    if c = '_' then d.isDigit && digitTail (d :: rest)
    else c.isDigit && digitTail (d :: rest)

/-- A valid unsigned Python integer numeral: nonempty, starts with a digit,
then `digitTail`. -/
def isDigitSeq : List Char → Bool
  | [] => false
  | c :: rest => c.isDigit && digitTail rest

/-- Numeric value of a numeral: drop the underscores, then standard
left-to-right decimal accumulation. -/
def digitsValue (ds : List Char) : Nat :=
  (ds.filter (fun c => c != '_')).foldl (fun a c => a * 10 + (c.toNat - 48)) 0

/-- Python `int(str)` after whitespace stripping: optional single sign,
then a digit sequence. -/
def pyIntCore : List Char → Option Int
  | [] => none
  | c :: rest =>
    if c = '-' then
      if isDigitSeq rest then some (-(digitsValue rest : Int)) else none
    else if c = '+' then
      if isDigitSeq rest then some ((digitsValue rest : Int)) else none
    else if isDigitSeq (c :: rest) then some ((digitsValue (c :: rest) : Int)) else none

/-- Python `int(s)` for a string `s` (ASCII model): strip whitespace, read an
optionally signed decimal numeral; `none` models the `ValueError`. -/
def pyIntChars (cs : List Char) : Option Int := pyIntCore (stripWs cs)

/-- Body of `parse_version` after the `lstrip`: split on `'.'` and convert
the first three segments with `int`; `none` models the raised
`ValueError` (from `IndexError` when a segment is missing or `ValueError`
when `int` fails). A fourth segment is ignored, as in the source. -/
def parseCore (cs : List Char) : Option (Int × Int × Int) :=
  match (splitDot cs)[0]?, (splitDot cs)[1]?, (splitDot cs)[2]? with
  | some a, some b, some c =>
    match pyIntChars a, pyIntChars b, pyIntChars c with
    | some x, some y, some z => some (x, y, z)
    | _, _, _ => none
  | _, _, _ => none

/-- `parse_version` from `release.py`: strip leading `'v'`s, split on `'.'`,
convert the first three segments to integers. -/
def parse_version (s : String) : Option (Int × Int × Int) :=
  parseCore (lstripV s.data)

/-- Canonical decimal digits of a natural number, as Python `str(int)`
renders it (big-endian, `"0"` for zero). -/
def natDigits (n : Nat) : List Char :=
  if n = 0 then ['0'] else ((Nat.digits 10 n).map Nat.digitChar).reverse

/-- Python `str` of an `int`: minus sign then digits when negative. -/
def intChars (i : Int) : List Char :=
  if i < 0 then '-' :: natDigits i.natAbs else natDigits i.toNat

/-- `format_version` from `release.py`: the f-string
`"{major}.{minor}.{patch}"`. -/
def format_version (major minor patch : Int) : String :=
  String.mk (intChars major ++ '.' :: intChars minor ++ '.' :: intChars patch)

/-- `get_current_version`: `data.get("version", "0.0.0")` on the parsed JSON
of `package.json`; the file's optional `"version"` string field is the
argument. -/
def get_current_version (versionField : Option String) : String :=
  versionField.getD "0.0.0"

/-- The user's increment choice returned by `ask_version_increment`
(which re-prompts until one of these four is selected). -/
inductive Directive
  | major
  | minor
  | patch
  | none
deriving DecidableEq

/-- The version computation of `main` (lines 346–355): mutate
`(major, minor, patch)` according to the directive. -/
def incrementVersion (d : Directive) (major minor patch : Int) : Int × Int × Int :=
  match d with
  | .major => (major + 1, 0, 0)
  | .minor => (major, minor + 1, 0)
  | .patch => (major, minor, patch + 1)
  | .none => (major, minor, patch)

/-- An observable effect of the orchestrator: an interactive prompt shown to
the user, a git command invocation, or an attempted JSON file update. -/
inductive Event
  | prompt (text : String)
  | git (args : List String)
  | write (path : String) (version : String)
deriving DecidableEq

/-- Environment of one run: which files exist, what each external command
returns, and the user's answers at each interactive prompt.
`remoteTagDeleteSuccess` is recorded but never consulted by the script
(the remote tag deletion is best-effort). -/
structure Env where
  packageJsonExists : Bool
  tauriConfExists : Bool
  statusSuccess : Bool
  /-- `git status --porcelain` stdout after `strip()`; `""` means clean. -/
  statusOutput : String
  answerCommitChanges : Bool
  /-- Raw reply to the commit-message prompt of `commit_pending_changes`. -/
  pendingMessage : String
  addAllSuccess : Bool
  commitPendingSuccess : Bool
  answerContinueUnclean : Bool
  remoteSuccess : Bool
  remoteOutput : String
  /-- The `"version"` field of `package.json` (already parsed as JSON). -/
  versionField : Option String
  directiveChoice : Directive
  answerProceed : Bool
  updatePackageOk : Bool
  updateTauriOk : Bool
  addFilesSuccess : Bool
  commitReleaseSuccess : Bool
  tagListSuccess : Bool
  tagListOutput : String
  answerRecreate : Bool
  tagDeleteSuccess : Bool
  remoteTagDeleteSuccess : Bool
  tagCreateSuccess : Bool
  tagPushSuccess : Bool
deriving DecidableEq

/-- `script_dir / "package.json"`, relative to the script directory. -/
def package_json_path : String := "package.json"

/-- `script_dir / "src-tauri" / "tauri.conf.json"`. -/
def tauri_conf_path : String := "src-tauri/tauri.conf.json"

/-- `commit_pending_changes`: prompt for a message; empty (after `strip`)
skips the commit; otherwise `git add -A` then `git commit -m msg`. -/
def commit_pending_changes (e : Env) : Bool × List Event :=
  let acc := [Event.prompt "Message:"]
  let msg := e.pendingMessage.trim
  if msg = "" then (false, acc)
  else
    let acc2 := acc ++ [Event.git ["git", "add", "-A"]]
    if e.addAllSuccess = false then (false, acc2)
    else
      let acc3 := acc2 ++ [Event.git ["git", "commit", "-m", msg]]
      (e.commitPendingSuccess, acc3)

/-- `check_git_status`: `git status --porcelain`; on a dirty tree offer to
commit everything, else ask whether to continue unclean. -/
def check_git_status (e : Env) : Bool × List Event :=
  let acc := [Event.git ["git", "status", "--porcelain"]]
  if e.statusSuccess = false then (false, acc)
  else if e.statusOutput = "" then (true, acc)
  else
    let acc2 := acc ++ [Event.prompt "Would you like to commit these changes?"]
    if e.answerCommitChanges then
      let r := commit_pending_changes e
      (r.1, acc2 ++ r.2)
    else
      (e.answerContinueUnclean, acc2 ++ [Event.prompt "Continue without committing?"])

/-- `check_git_remote`: `git remote -v` must succeed with nonempty output. -/
def check_git_remote (e : Env) : Bool × List Event :=
  (e.remoteSuccess && (e.remoteOutput != ""), [Event.git ["git", "remote", "-v"]])

/-- `update_json_version`: attempt the read/modify/write of one JSON file;
`ok` is whether the file operations succeed. -/
def update_json_version (path newVersion : String) (ok : Bool) : Bool × List Event :=
  (ok, [Event.write path newVersion])

/-- `git_add_and_commit`: stage exactly `files`, then commit with the fixed
message `"chore: release v{version}"`. -/
def git_add_and_commit (files : List String) (version : String) (e : Env) :
    Bool × List Event :=
  let acc := [Event.git (["git", "add"] ++ files)]
  if e.addFilesSuccess = false then (false, acc)
  else
    let acc2 := acc ++ [Event.git ["git", "commit", "-m", "chore: release v" ++ version]]
    (e.commitReleaseSuccess, acc2)

/-- Tail of `git_create_and_push_tag`: create the tag, then push it. -/
def tagCreatePush (tag : String) (e : Env) (acc : List Event) : Bool × List Event :=
  let acc2 := acc ++ [Event.git ["git", "tag", tag]]
  if e.tagCreateSuccess = false then (false, acc2)
  else
    let acc3 := acc2 ++ [Event.git ["git", "push", "origin", tag]]
    (e.tagPushSuccess, acc3)

/-- `git_create_and_push_tag`: if `git tag -l` reports the tag, offer
delete-and-recreate (declining aborts); local deletion failure aborts; the
remote deletion outcome is ignored; then create and push. -/
def git_create_and_push_tag (version : String) (e : Env) : Bool × List Event :=
  let tag := "v" ++ version
  let acc := [Event.git ["git", "tag", "-l", tag]]
  if e.tagListSuccess && (e.tagListOutput != "") then
    let acc2 := acc ++ [Event.prompt "Do you want to delete and recreate it?"]
    if e.answerRecreate = false then (false, acc2)
    else
      let acc3 := acc2 ++ [Event.git ["git", "tag", "-d", tag]]
      if e.tagDeleteSuccess = false then (false, acc3)
      else
        let acc4 := acc3 ++ [Event.git ["git", "push", "origin", ":refs/tags/" ++ tag]]
        tagCreatePush tag e acc4
  else tagCreatePush tag e acc

/-- `main` from `release.py`: exit code plus the trace of effects.  The
try/except around the version read is the `match` on `parse_version`
(`get_current_version` itself cannot fail once `package.json` exists and is
valid JSON, which the `Env` extraction assumes). -/
def main (e : Env) : Int × List Event :=
  if e.packageJsonExists = false then (1, [])
  else if e.tauriConfExists = false then (1, [])
  else
    let r1 := check_git_status e
    if r1.1 = false then (1, r1.2)
    else
      let r2 := check_git_remote e
      let ev2 := r1.2 ++ r2.2
      if r2.1 = false then (1, ev2)
      else
        let current_version := get_current_version e.versionField
        match parse_version current_version with
        | Option.none => (1, ev2)
        | some (major, minor, patch) =>
          let ev3 := ev2 ++ [Event.prompt "Enter your choice (0-3):"]
          let nv := incrementVersion e.directiveChoice major minor patch
          let new_version := format_version nv.1 nv.2.1 nv.2.2
          let ev4 := ev3 ++ [Event.prompt ("Proceed with releasing v" ++ new_version ++ "?")]
          if e.answerProceed = false then (0, ev4)
          else
            let u1 := update_json_version package_json_path new_version e.updatePackageOk
            let ev5 := ev4 ++ u1.2
            if u1.1 = false then (1, ev5)
            else
              let u2 := update_json_version tauri_conf_path new_version e.updateTauriOk
              let ev6 := ev5 ++ u2.2
              if u2.1 = false then (1, ev6)
              else
                let c := git_add_and_commit [package_json_path, tauri_conf_path] new_version e
                let ev7 := ev6 ++ c.2
                if c.1 = false then (1, ev7)
                else
                  let t := git_create_and_push_tag new_version e
                  let ev8 := ev7 ++ t.2
                  if t.1 = false then (1, ev8) else (0, ev8)

/-- Spec-side (claim C6): the git-status step lets the run continue iff the
status command succeeds and either the tree is clean, or the user opts to
commit everything and that commit succeeds with a nonempty message, or the
user explicitly confirms continuing unclean. -/
def statusStepPasses (e : Env) : Bool :=
  e.statusSuccess &&
    ((e.statusOutput == "") ||
      (if e.answerCommitChanges then
        (e.pendingMessage.trim != "") && e.addAllSuccess && e.commitPendingSuccess
      else e.answerContinueUnclean))

/-- Spec-side (claim C6): the tag step succeeds iff (no pre-existing tag, or
the user accepts recreation and the local deletion succeeds) and both the
tag creation and the tag push succeed; the remote deletion outcome is
irrelevant. -/
def tagStepPasses (e : Env) : Bool :=
  ((!(e.tagListSuccess && (e.tagListOutput != ""))) ||
      (e.answerRecreate && e.tagDeleteSuccess)) &&
    e.tagCreateSuccess && e.tagPushSuccess

/-- Spec-side (claim C6): all pre-release verifications pass (files present,
status step, remote configured, current version parses). -/
def checksPass (e : Env) : Bool :=
  e.packageJsonExists && e.tauriConfExists && statusStepPasses e &&
    (e.remoteSuccess && (e.remoteOutput != "")) &&
    (parse_version (get_current_version e.versionField)).isSome

/-- Spec-side (claim C6, amended): exit code 0 exactly when all pre-checks
pass and then either the user declines the final proceed confirmation, or
every later step (two file updates, commit, tag) succeeds. -/
def exitZeroSpec (e : Env) : Bool :=
  checksPass e &&
    (!e.answerProceed ||
      (e.updatePackageOk && e.updateTauriOk && e.addFilesSuccess &&
        e.commitReleaseSuccess && tagStepPasses e))

/-- Modelled from the claim (C8): the tag-creation step per the spec's words.
If the tag already exists locally the user is offered deletion and
recreation, declining aborts; on acceptance the local tag is deleted
(aborting on failure), the remote deletion is attempted best-effort (its
outcome ignored), and then the tag is created and pushed, aborting on
creation or push failure. -/
def tagStepSpec (version : String) (e : Env) : Bool × List Event :=
  let tag := "v" ++ version
  let tagAlreadyExists := e.tagListSuccess && (e.tagListOutput != "")
  let succeeded :=
    ((!tagAlreadyExists) || (e.answerRecreate && e.tagDeleteSuccess)) &&
      e.tagCreateSuccess && e.tagPushSuccess
  let preEvents :=
    [Event.git ["git", "tag", "-l", tag]] ++
      (if tagAlreadyExists then
        [Event.prompt "Do you want to delete and recreate it?"] ++
          (if e.answerRecreate then
            [Event.git ["git", "tag", "-d", tag]] ++
              (if e.tagDeleteSuccess then
                [Event.git ["git", "push", "origin", ":refs/tags/" ++ tag]]
              else [])
          else [])
      else [])
  let createEvents :=
    if (!tagAlreadyExists) || (e.answerRecreate && e.tagDeleteSuccess) then
      [Event.git ["git", "tag", tag]] ++
        (if e.tagCreateSuccess then [Event.git ["git", "push", "origin", tag]] else [])
    else []
  (succeeded, preEvents ++ createEvents)

/-- Modelled from the claim (C4): remove exactly one leading `'v'` when
present, nothing otherwise. -/
def stripOneV : List Char → List Char
  | [] => []
  | c :: rest => if c = 'v' then rest else c :: rest

/-- Modelled from the claim (C4): parse after removing exactly one optional
leading `'v'`, the remainder subject to the 3-numeric-segment requirement. -/
def parse_oneStrip (s : String) : Option (Int × Int × Int) :=
  parseCore (stripOneV s.data)

/-- A baseline environment in which every check passes, every command
succeeds, and the user confirms every prompt. -/
def allGoodEnv : Env where
  packageJsonExists := true
  tauriConfExists := true
  statusSuccess := true
  statusOutput := ""
  answerCommitChanges := false
  pendingMessage := ""
  addAllSuccess := true
  commitPendingSuccess := true
  answerContinueUnclean := false
  remoteSuccess := true
  remoteOutput := "origin"
  versionField := some "1.2.3"
  directiveChoice := Directive.patch
  answerProceed := true
  updatePackageOk := true
  updateTauriOk := true
  addFilesSuccess := true
  commitReleaseSuccess := true
  tagListSuccess := true
  tagListOutput := ""
  answerRecreate := false
  tagDeleteSuccess := true
  remoteTagDeleteSuccess := true
  tagCreateSuccess := true
  tagPushSuccess := true

/-- Environment for claim C6's counterexample: the tree is dirty and the
user declines both the offer to commit and the offer to continue unclean;
every external command succeeds. -/
def dirtyDeclineEnv : Env :=
  { allGoodEnv with
    statusOutput := "M src/App.tsx"
    answerCommitChanges := false
    answerContinueUnclean := false }

/-- Environment with `tauri.conf.json` missing. -/
def missingTauriEnv : Env := { allGoodEnv with tauriConfExists := false }

/-- Environment whose `package.json` has no `"version"` field. -/
def noVersionEnv : Env := { allGoodEnv with versionField := Option.none }

/-- Environment whose `package.json` has a malformed `"version"` field. -/
def badVersionEnv : Env := { allGoodEnv with versionField := some "abc" }

/-! ### Facts about canonical decimal renderings -/

theorem digitChar_spec {d : Nat} (hd : d < 10) :
    (Nat.digitChar d).isDigit = true ∧ (Nat.digitChar d).isWhitespace = false ∧
      Nat.digitChar d ≠ '.' ∧ Nat.digitChar d ≠ 'v' ∧ Nat.digitChar d ≠ '-' ∧
      Nat.digitChar d ≠ '+' ∧ Nat.digitChar d ≠ '_' ∧ (Nat.digitChar d).toNat - 48 = d := by
  interval_cases d <;> decide

theorem mem_natDigits {n : Nat} {c : Char} (hc : c ∈ natDigits n) :
    ∃ d : Nat, d < 10 ∧ c = Nat.digitChar d := by
  unfold natDigits at hc
  by_cases h : n = 0
  · rw [if_pos h] at hc
    simp only [List.mem_singleton] at hc
    exact ⟨0, by norm_num, by rw [hc]; rfl⟩
  · rw [if_neg h] at hc
    rw [List.mem_reverse] at hc
    obtain ⟨d, hd, rfl⟩ := List.mem_map.mp hc
    exact ⟨d, Nat.digits_lt_base (by norm_num) hd, rfl⟩

theorem natDigits_ne_nil (n : Nat) : natDigits n ≠ [] := by
  unfold natDigits
  by_cases h : n = 0
  · rw [if_pos h]; simp
  · rw [if_neg h]
    simp [Nat.digits_ne_nil_iff_ne_zero.mpr h]

theorem dropWhile_eq_self_of {p : Char → Bool} {l : List Char}
    (h : ∀ c ∈ l, p c = false) : List.dropWhile p l = l := by
  cases l with
  | nil => rfl
  | cons c rest =>
    rw [List.dropWhile_cons, h c (List.mem_cons_self c rest)]
    simp

theorem stripWs_eq_self {l : List Char} (h : ∀ c ∈ l, c.isWhitespace = false) :
    stripWs l = l := by
  unfold stripWs
  rw [dropWhile_eq_self_of h]
  rw [dropWhile_eq_self_of (fun c hc => h c (List.mem_reverse.mp hc))]
  exact List.reverse_reverse l

theorem isDigit_ne_underscore {c : Char} (h : c.isDigit = true) : ¬(c = '_') := by
  intro he
  rw [he] at h
  exact absurd h (by decide)

theorem digitTail_of_forall : ∀ {l : List Char},
    (∀ c ∈ l, c.isDigit = true) → digitTail l = true
  | [], _ => rfl
  | [c], h => by
    have hc : c.isDigit = true := h c (List.mem_cons_self c [])
    rw [show digitTail [c] = c.isDigit from rfl, hc]
  | c :: d :: rest, h => by
    have hc : c.isDigit = true := h c (List.mem_cons_self c (d :: rest))
    have hstep : digitTail (c :: d :: rest) =
        if c = '_' then d.isDigit && digitTail (d :: rest)
        else c.isDigit && digitTail (d :: rest) := rfl
    rw [hstep, if_neg (isDigit_ne_underscore hc), hc, Bool.true_and]
    exact digitTail_of_forall (fun x hx => h x (List.mem_cons_of_mem c hx))

theorem isDigitSeq_of_forall {l : List Char} (hne : l ≠ [])
    (h : ∀ c ∈ l, c.isDigit = true) : isDigitSeq l = true := by
  cases l with
  | nil => exact absurd rfl hne
  | cons c rest =>
    rw [isDigitSeq, h c (List.mem_cons_self c rest), Bool.true_and]
    exact digitTail_of_forall (fun d hd => h d (List.mem_cons_of_mem c hd))

theorem foldl_digitChar (L : List Nat) (hL : ∀ d ∈ L, d < 10) (a : Nat) :
    ((L.map Nat.digitChar).reverse).foldl (fun x c => x * 10 + (c.toNat - 48)) a =
      a * 10 ^ L.length + Nat.ofDigits 10 L := by
  induction L generalizing a with
  | nil => simp [Nat.ofDigits]
  | cons d L ih =>
    have hd : d < 10 := hL d (List.mem_cons_self d L)
    have hrest : ∀ x ∈ L, x < 10 := fun x hx => hL x (List.mem_cons_of_mem d hx)
    have hchar : (Nat.digitChar d).toNat - 48 = d := (digitChar_spec hd).2.2.2.2.2.2.2
    rw [List.map_cons, List.reverse_cons, List.foldl_append _ _ _ _]
    rw [ih hrest a]
    simp only [List.foldl_cons, List.foldl_nil, hchar]
    rw [Nat.ofDigits_cons, List.length_cons, pow_succ]
    ring

theorem digitsValue_natDigits (n : Nat) : digitsValue (natDigits n) = n := by
  by_cases h : n = 0
  · subst h; decide
  · have hall : ∀ d ∈ Nat.digits 10 n, d < 10 :=
      fun d hd => Nat.digits_lt_base (by norm_num) hd
    have hfilter : (natDigits n).filter (fun c => c != '_') = natDigits n :=
      List.filter_eq_self.mpr (fun c hc => by
        obtain ⟨d, hd, rfl⟩ := mem_natDigits hc
        simpa [bne_iff_ne] using (digitChar_spec hd).2.2.2.2.2.2.1)
    unfold digitsValue
    rw [hfilter]
    rw [show natDigits n = ((Nat.digits 10 n).map Nat.digitChar).reverse from by
      unfold natDigits; rw [if_neg h]]
    rw [foldl_digitChar _ hall 0]
    simp [Nat.ofDigits_digits]

theorem pyIntChars_natDigits (n : Nat) : pyIntChars (natDigits n) = some (n : Int) := by
  have hws : ∀ c ∈ natDigits n, c.isWhitespace = false := fun c hc => by
    obtain ⟨d, hd, rfl⟩ := mem_natDigits hc
    exact (digitChar_spec hd).2.1
  have hdig : ∀ c ∈ natDigits n, c.isDigit = true := fun c hc => by
    obtain ⟨d, hd, rfl⟩ := mem_natDigits hc
    exact (digitChar_spec hd).1
  obtain ⟨c, rest, hcr⟩ : ∃ c rest, natDigits n = c :: rest := by
    cases hn : natDigits n with
    | nil => exact absurd hn (natDigits_ne_nil n)
    | cons c rest => exact ⟨c, rest, rfl⟩
  obtain ⟨d, hd, hcd⟩ := mem_natDigits (hcr ▸ List.mem_cons_self c rest)
  have hseq : isDigitSeq (c :: rest) = true := hcr ▸ isDigitSeq_of_forall (natDigits_ne_nil n) hdig
  have hval : digitsValue (c :: rest) = n := hcr ▸ digitsValue_natDigits n
  unfold pyIntChars
  rw [stripWs_eq_self hws, hcr]
  rw [pyIntCore]
  rw [if_neg (by rw [hcd]; exact (digitChar_spec hd).2.2.2.2.1),
    if_neg (by rw [hcd]; exact (digitChar_spec hd).2.2.2.2.2.1), if_pos hseq, hval]

/-! ### Facts about `splitDot` and `lstripV` -/

theorem splitDot_ne_nil : ∀ (l : List Char), splitDot l ≠ []
  | [] => by simp [splitDot]
  | c :: rest => by
    rw [splitDot]
    by_cases h : c = '.'
    · simp [h]
    · rw [if_neg h]
      cases hs : splitDot rest <;> simp

theorem splitDot_no_dot : ∀ {l : List Char}, (∀ c ∈ l, c ≠ '.') → splitDot l = [l]
  | [], _ => rfl
  | c :: rest, h => by
    rw [splitDot, if_neg (h c (List.mem_cons_self c rest))]
    rw [splitDot_no_dot (fun d hd => h d (List.mem_cons_of_mem c hd))]

theorem splitDot_append {l : List Char} (h : ∀ c ∈ l, c ≠ '.') (rest : List Char) :
    splitDot (l ++ '.' :: rest) = l :: splitDot rest := by
  induction l with
  | nil =>
    rw [List.nil_append, splitDot, if_pos rfl]
  | cons c l ih =>
    have hc : c ≠ '.' := h c (List.mem_cons_self c l)
    rw [List.cons_append, splitDot, if_neg hc,
      ih (fun d hd => h d (List.mem_cons_of_mem c hd))]

theorem mem_of_mem_splitDot {cs : List Char} :
    ∀ {seg : List Char}, seg ∈ splitDot cs → ∀ {c : Char}, c ∈ seg → c ∈ cs := by
  induction cs with
  | nil =>
    intro seg hseg c hc
    simp [splitDot] at hseg
    subst hseg
    exact absurd hc (List.not_mem_nil c)
  | cons x rest ih =>
    intro seg hseg c hc
    rw [splitDot] at hseg
    by_cases hx : x = '.'
    · rw [if_pos hx] at hseg
      rcases List.mem_cons.mp hseg with h | h
      · subst h; exact absurd hc (List.not_mem_nil c)
      · exact List.mem_cons_of_mem x (ih h hc)
    · rw [if_neg hx] at hseg
      cases hs : splitDot rest with
      | nil => exact absurd hs (splitDot_ne_nil rest)
      | cons s ss =>
        rw [hs] at hseg
        rcases List.mem_cons.mp hseg with h | h
        · subst h
          rcases List.mem_cons.mp hc with h' | h'
          · exact h' ▸ List.mem_cons_self x rest
          · exact List.mem_cons_of_mem x (ih (hs ▸ List.mem_cons_self s ss) h')
        · exact List.mem_cons_of_mem x (ih (hs ▸ List.mem_cons_of_mem s h) hc)

theorem splitDot_length_lstripV (cs : List Char) :
    (splitDot (lstripV cs)).length = (splitDot cs).length := by
  induction cs with
  | nil => rfl
  | cons c rest ih =>
    unfold lstripV at ih ⊢
    rw [List.dropWhile_cons]
    by_cases h : c = 'v'
    · rw [if_pos (by simp [h])]
      rw [ih]
      rw [splitDot, if_neg (by simp [h])]
      cases hs : splitDot rest with
      | nil => exact absurd hs (splitDot_ne_nil rest)
      | cons s ss => simp
    · rw [if_neg (by simp [h])]

theorem mem_of_mem_lstripV {l : List Char} {c : Char} (h : c ∈ lstripV l) : c ∈ l :=
  (List.dropWhile_sublist _).mem h

theorem mem_of_mem_stripWs {l : List Char} {c : Char} (h : c ∈ stripWs l) : c ∈ l := by
  unfold stripWs at h
  rw [List.mem_reverse] at h
  have h2 := (List.dropWhile_sublist (l := (l.dropWhile Char.isWhitespace).reverse)
    Char.isWhitespace).mem h
  rw [List.mem_reverse] at h2
  exact (List.dropWhile_sublist _).mem h2

theorem lstripV_cons_v (l : List Char) : lstripV ('v' :: l) = lstripV l := by
  simp [lstripV, List.dropWhile_cons]

theorem lstripV_eq_self {l : List Char} (h : l.head? ≠ some 'v') : lstripV l = l := by
  cases l with
  | nil => rfl
  | cons c rest =>
    have hc : ¬((c == 'v') = true) := by
      intro he
      rw [beq_iff_eq] at he
      subst he
      exact h rfl
    unfold lstripV
    rw [List.dropWhile_cons, if_neg hc]

/-! ### Round trip of `format_version` and `parse_version` -/

theorem format_version_data (M m p : Nat) :
    (format_version (M : Int) (m : Int) (p : Int)).data =
      natDigits M ++ ('.' :: (natDigits m ++ ('.' :: natDigits p))) := by
  unfold format_version intChars
  rw [if_neg (by exact not_lt.mpr (Int.natCast_nonneg M)),
    if_neg (by exact not_lt.mpr (Int.natCast_nonneg m)),
    if_neg (by exact not_lt.mpr (Int.natCast_nonneg p)),
    Int.toNat_natCast, Int.toNat_natCast, Int.toNat_natCast]
  show (natDigits M ++ '.' :: natDigits m) ++ '.' :: natDigits p = _
  rw [List.append_assoc, List.cons_append]

theorem natDigits_no_dot (n : Nat) : ∀ c ∈ natDigits n, c ≠ '.' := fun c hc => by
  obtain ⟨d, hd, rfl⟩ := mem_natDigits hc
  exact (digitChar_spec hd).2.2.1

theorem parseCore_format (M m p : Nat) :
    parseCore (natDigits M ++ ('.' :: (natDigits m ++ ('.' :: natDigits p)))) =
      some ((M : Int), (m : Int), (p : Int)) := by
  unfold parseCore
  rw [splitDot_append (natDigits_no_dot M), splitDot_append (natDigits_no_dot m),
    splitDot_no_dot (natDigits_no_dot p)]
  simp only [List.getElem?_cons_zero, List.getElem?_cons_succ]
  rw [pyIntChars_natDigits, pyIntChars_natDigits, pyIntChars_natDigits]

theorem natDigits_head_not_v (n : Nat) (rest : List Char) :
    (natDigits n ++ rest).head? ≠ some 'v' := by
  obtain ⟨c, cs, hcr⟩ : ∃ c cs, natDigits n = c :: cs := by
    cases hn : natDigits n with
    | nil => exact absurd hn (natDigits_ne_nil n)
    | cons c cs => exact ⟨c, cs, rfl⟩
  obtain ⟨d, hd, hcd⟩ := mem_natDigits (hcr ▸ List.mem_cons_self c cs)
  rw [hcr, List.cons_append, List.head?_cons]
  intro h
  have : c = 'v' := by injection h
  exact (digitChar_spec hd).2.2.2.1 (hcd ▸ this)

theorem parse_version_format (M m p : Nat) :
    parse_version (format_version (M : Int) (m : Int) (p : Int)) =
      some ((M : Int), (m : Int), (p : Int)) := by
  unfold parse_version
  rw [format_version_data]
  rw [lstripV_eq_self (natDigits_head_not_v M ('.' :: (natDigits m ++ ('.' :: natDigits p))))]
  exact parseCore_format M m p

/-! ### Failure cases of `parseCore` -/

theorem parseCore_none_of_short {cs : List Char} (h : (splitDot cs).length < 3) :
    parseCore cs = none := by
  have h2 : (splitDot cs)[2]? = none := List.getElem?_eq_none (by omega)
  unfold parseCore
  rw [h2]
  cases (splitDot cs)[0]? <;> cases (splitDot cs)[1]? <;> rfl

theorem parseCore_none_of_bad {cs : List Char} {i : Nat} (hi : i < 3) {seg : List Char}
    (hseg : (splitDot cs)[i]? = some seg) (hbad : pyIntChars seg = none) :
    parseCore cs = none := by
  unfold parseCore
  interval_cases i
  · rw [hseg]
    cases (splitDot cs)[1]? with
    | none => cases (splitDot cs)[2]? <;> rfl
    | some b =>
      cases (splitDot cs)[2]? with
      | none => rfl
      | some c =>
        dsimp only
        rw [hbad]
  · rw [hseg]
    cases (splitDot cs)[0]? with
    | none => cases (splitDot cs)[2]? <;> rfl
    | some a =>
      cases (splitDot cs)[2]? with
      | none => rfl
      | some c =>
        dsimp only
        rw [hbad]
        all_goals cases pyIntChars a <;> cases pyIntChars c <;> rfl
  · rw [hseg]
    cases (splitDot cs)[0]? with
    | none => cases (splitDot cs)[1]? <;> rfl
    | some a =>
      cases (splitDot cs)[1]? with
      | none => rfl
      | some b =>
        dsimp only
        rw [hbad]
        all_goals cases pyIntChars a <;> cases pyIntChars b <;> rfl

theorem pyIntChars_nonneg {l : List Char} {v : Int} (h : pyIntChars l = some v)
    (hm : '-' ∉ l) : 0 ≤ v := by
  unfold pyIntChars at h
  cases hs : stripWs l with
  | nil =>
    rw [hs] at h
    exact absurd h (by simp [pyIntCore])
  | cons c rest =>
    rw [hs] at h
    rw [show pyIntCore (c :: rest) =
      (if c = '-' then
        if isDigitSeq rest then some (-(digitsValue rest : Int)) else none
      else if c = '+' then
        if isDigitSeq rest then some ((digitsValue rest : Int)) else none
      else if isDigitSeq (c :: rest) then some ((digitsValue (c :: rest) : Int))
      else none) from rfl] at h
    by_cases hc : c = '-'
    · subst hc
      exact absurd (mem_of_mem_stripWs (by rw [hs]; exact List.mem_cons_self _ _)) hm
    · rw [if_neg hc] at h
      by_cases hc2 : c = '+'
      · rw [if_pos hc2] at h
        by_cases hds : isDigitSeq rest = true
        · rw [if_pos hds] at h
          injection h with h'
          rw [← h']
          exact Int.natCast_nonneg _
        · rw [if_neg hds] at h
          exact absurd h (by simp)
      · rw [if_neg hc2] at h
        by_cases hds : isDigitSeq (c :: rest) = true
        · rw [if_pos hds] at h
          injection h with h'
          rw [← h']
          exact Int.natCast_nonneg _
        · rw [if_neg hds] at h
          exact absurd h (by simp)

/-! ### Bridge lemmas between the orchestrator functions and their
Boolean characterisations -/

theorem check_git_remote_fst (e : Env) :
    (check_git_remote e).1 = (e.remoteSuccess && (e.remoteOutput != "")) := rfl

theorem check_git_status_fst (e : Env) :
    (check_git_status e).1 = statusStepPasses e := by
  unfold check_git_status commit_pending_changes statusStepPasses
  cases h1 : e.statusSuccess <;>
  cases h2 : e.statusOutput == "" <;>
  cases h3 : e.answerCommitChanges <;>
  cases h4 : e.pendingMessage.trim == "" <;>
  cases h5 : e.addAllSuccess <;>
  simp_all [bne, beq_iff_eq, beq_eq_false_iff_ne]

theorem git_add_and_commit_fst (files : List String) (v : String) (e : Env) :
    (git_add_and_commit files v e).1 = (e.addFilesSuccess && e.commitReleaseSuccess) := by
  unfold git_add_and_commit
  cases h : e.addFilesSuccess <;> simp_all

theorem git_create_and_push_tag_fst (v : String) (e : Env) :
    (git_create_and_push_tag v e).1 = tagStepPasses e := by
  unfold git_create_and_push_tag tagCreatePush tagStepPasses
  cases h1 : e.tagListSuccess <;>
  cases h2 : e.tagListOutput == "" <;>
  cases h3 : e.answerRecreate <;>
  cases h4 : e.tagDeleteSuccess <;>
  cases h5 : e.tagCreateSuccess <;>
  simp_all [bne, beq_iff_eq, beq_eq_false_iff_ne]

/-- C6 (amended): the process exit code is 0 exactly when all pre-release
verifications pass (files present, status step resolved, remote configured,
version parses) and then either the user declines the final
proceed-with-release confirmation, or every later step succeeds.  In
particular, declining the continue-without-committing prompt or the
tag-recreation prompt exits with code 1, like any verification or command
failure. -/
theorem C6_exitCode_amended (e : Env) :
    (main e).1 = 0 ↔ exitZeroSpec e = true := by
  simp only [main, update_json_version, check_git_status_fst, check_git_remote_fst,
    git_add_and_commit_fst, git_create_and_push_tag_fst]
  cases h1 : e.packageJsonExists
  · simp [exitZeroSpec, checksPass, h1]
  cases h2 : e.tauriConfExists
  · simp [exitZeroSpec, checksPass, h1, h2]
  cases h3 : statusStepPasses e
  · simp [exitZeroSpec, checksPass, h1, h2, h3]
  cases h4a : e.remoteSuccess
  · simp [exitZeroSpec, checksPass, h1, h2, h3, h4a]
  cases h4b : e.remoteOutput == ""
  case true =>
    simp [exitZeroSpec, checksPass, bne, h1, h2, h3, h4a, h4b]
  case false =>
  rcases hpv : parse_version (get_current_version e.versionField) with _ | ⟨M, m, p⟩
  · simp [exitZeroSpec, checksPass, bne, h1, h2, h3, h4a, h4b, hpv]
  dsimp only
  cases h5 : e.answerProceed
  · simp [exitZeroSpec, checksPass, bne, h1, h2, h3, h4a, h4b, hpv, h5]
  cases h6 : e.updatePackageOk
  · simp [exitZeroSpec, checksPass, bne, h1, h2, h3, h4a, h4b, hpv, h5, h6]
  cases h7 : e.updateTauriOk
  · simp [exitZeroSpec, checksPass, bne, h1, h2, h3, h4a, h4b, hpv, h5, h6, h7]
  cases h8a : e.addFilesSuccess
  · simp [exitZeroSpec, checksPass, bne, h1, h2, h3, h4a, h4b, hpv, h5, h6, h7, h8a]
  cases h8b : e.commitReleaseSuccess
  · simp [exitZeroSpec, checksPass, bne, h1, h2, h3, h4a, h4b, hpv, h5, h6, h7, h8a, h8b]
  cases h9 : tagStepPasses e
  · simp [exitZeroSpec, checksPass, bne, h1, h2, h3, h4a, h4b, hpv, h5, h6, h7, h8a, h8b, h9]
  simp [exitZeroSpec, checksPass, bne, h1, h2, h3, h4a, h4b, hpv, h5, h6, h7, h8a, h8b, h9]

/-- C1: for every version triple, `increment` yields `(M+1,0,0)` for
directive `major`, `(M,m+1,0)` for `minor`, `(M,m,p+1)` for `patch`, and
the unchanged triple for `none`. -/
theorem C1_increment_directive (M m p : Int) :
    incrementVersion Directive.major M m p = (M + 1, 0, 0) ∧
      incrementVersion Directive.minor M m p = (M, m + 1, 0) ∧
      incrementVersion Directive.patch M m p = (M, m, p + 1) ∧
      incrementVersion Directive.none M m p = (M, m, p) :=
  ⟨rfl, rfl, rfl, rfl⟩

theorem format_version_one_two_three : format_version 1 2 3 = "1.2.3" := by
  have d1 : natDigits 1 = ['1'] := by norm_num [natDigits, Nat.digits_def']; decide
  have d2 : natDigits 2 = ['2'] := by norm_num [natDigits, Nat.digits_def']; decide
  have d3 : natDigits 3 = ['3'] := by norm_num [natDigits, Nat.digits_def']; decide
  unfold format_version intChars
  rw [if_neg (by norm_num), if_neg (by norm_num), if_neg (by norm_num)]
  rw [show (1 : Int).toNat = 1 from rfl, show (2 : Int).toNat = 2 from rfl,
    show (3 : Int).toNat = 3 from rfl]
  rw [d1, d2, d3]
  decide

/-- C2 counterexample: the well-formed input `"v1.2.3"` (leading `v`) does
not round-trip: `format(parse("v1.2.3"))` is `"1.2.3"`, not `"v1.2.3"`,
because `format_version` never restores the prefix. -/
theorem C2_roundtrip_cex :
    (parse_version "v1.2.3").map (fun t => format_version t.1 t.2.1 t.2.2) =
        some "1.2.3" ∧
      "1.2.3" ≠ "v1.2.3" := by
  constructor
  · have hp : parse_version "v1.2.3" = some (1, 2, 3) := by decide
    rw [hp]
    show some (format_version 1 2 3) = some "1.2.3"
    rw [format_version_one_two_three]
  · decide

/-- C2 (amended): `format(parse(s)) = s` for every canonical `"M.m.p"`
without a `v` prefix; for the `v`-prefixed form, the round trip returns the
same string with the prefix removed. -/
theorem C2_roundtrip_amended (M m p : Nat) :
    (parse_version (format_version (M : Int) (m : Int) (p : Int))).map
        (fun t => format_version t.1 t.2.1 t.2.2) =
      some (format_version (M : Int) (m : Int) (p : Int)) ∧
    (parse_version ("v" ++ format_version (M : Int) (m : Int) (p : Int))).map
        (fun t => format_version t.1 t.2.1 t.2.2) =
      some (format_version (M : Int) (m : Int) (p : Int)) := by
  have h1 := parse_version_format M m p
  have h2 : parse_version ("v" ++ format_version (M : Int) (m : Int) (p : Int)) =
      some ((M : Int), (m : Int), (p : Int)) := by
    unfold parse_version
    rw [String.data_append]
    show parseCore (lstripV ('v' :: (format_version (M : Int) (m : Int) (p : Int)).data)) = _
    rw [lstripV_cons_v]
    exact h1
  rw [h1, h2]
  exact ⟨rfl, rfl⟩

/-- C3 counterexample: the input `"v1.2.3"` has the non-numeric first
dot-separated segment `"v1"`, yet `parse_version` succeeds (the leading
`v` is stripped before splitting). -/
theorem C3_nonNumeric_cex :
    (splitDot ("v1.2.3".data))[0]? = some ['v', '1'] ∧
      pyIntChars ['v', '1'] = Option.none ∧
      parse_version "v1.2.3" = some (1, 2, 3) := by decide

/-- C3 (amended): parse fails for every input with fewer than 3
dot-separated segments, and for every input in which — after the leading
`'v'` characters are removed — any of the first three segments is
non-numeric. -/
theorem C3_parse_failure_amended (s : String) :
    ((splitDot s.data).length < 3 → parse_version s = Option.none) ∧
    (∀ i : Nat, i < 3 → ∀ seg : List Char,
      (splitDot (lstripV s.data))[i]? = some seg → pyIntChars seg = Option.none →
        parse_version s = Option.none) := by
  constructor
  · intro h
    unfold parse_version
    apply parseCore_none_of_short
    rw [splitDot_length_lstripV]
    exact h
  · intro i hi seg hseg hbad
    unfold parse_version
    exact parseCore_none_of_bad hi hseg hbad

theorem C3_parse_failure_witness :
    parse_version "1.2" = Option.none ∧ parse_version "a.2.3" = Option.none :=
  ⟨(C3_parse_failure_amended "1.2").1 (by decide),
    (C3_parse_failure_amended "a.2.3").2 0 (by decide) ['a'] (by decide) (by decide)⟩

/-- C4 counterexample: on `"vv1.2.3"` the source strips *both* leading
`v`s and succeeds, while the claimed remove-exactly-one-`v` behaviour
would have to fail (segment `"v1"` is non-numeric). -/
theorem C4_oneStrip_cex :
    parse_version "vv1.2.3" = some (1, 2, 3) ∧
      parse_oneStrip "vv1.2.3" = Option.none := by decide

/-- C4 (amended): `parse_version` strips *all* leading `'v'` characters:
prefixing any input with `'v'` never changes the result, and on an input
not starting with `'v'` nothing is stripped at all. -/
theorem C4_stripAll_amended (s : String) :
    parse_version ("v" ++ s) = parse_version s ∧
      (s.data.head? ≠ some 'v' → parse_version s = parseCore s.data) := by
  constructor
  · unfold parse_version
    rw [String.data_append]
    show parseCore (lstripV ('v' :: s.data)) = parseCore (lstripV s.data)
    rw [lstripV_cons_v]
  · intro h
    unfold parse_version
    rw [lstripV_eq_self h]

theorem C4_stripAll_witness :
    (parse_version ("v" ++ "1.2.3") = parse_version "1.2.3") ∧
      parse_version "1.2.3" = parseCore (String.data "1.2.3") :=
  ⟨(C4_stripAll_amended "1.2.3").1, (C4_stripAll_amended "1.2.3").2 (by decide)⟩

/-- C5 counterexample: `parse_version "-1.2.3"` succeeds and returns the
negative major component `-1`; the non-negativity invariant is not
enforced by the code. -/
theorem C5_nonneg_cex :
    parse_version "-1.2.3" = some (-1, 2, 3) ∧ ¬(0 ≤ (-1 : Int)) := by decide

/-- C5 (amended): a successful parse yields integer components, which are
all non-negative whenever the input contains no `'-'` character. -/
theorem C5_nonneg_amended (s : String) (M m p : Int)
    (hp : parse_version s = some (M, m, p)) (hm : '-' ∉ s.data) :
    0 ≤ M ∧ 0 ≤ m ∧ 0 ≤ p := by
  have hm' : '-' ∉ lstripV s.data := fun hc => hm (mem_of_mem_lstripV hc)
  have hseg : ∀ seg : List Char, seg ∈ splitDot (lstripV s.data) → '-' ∉ seg :=
    fun seg hs hc => hm' (mem_of_mem_splitDot hs hc)
  unfold parse_version parseCore at hp
  revert hp
  rcases h0 : (splitDot (lstripV s.data))[0]? with _ | a
  · intro hp; simp at hp
  rcases h1 : (splitDot (lstripV s.data))[1]? with _ | b
  · intro hp; simp at hp
  rcases h2 : (splitDot (lstripV s.data))[2]? with _ | c
  · intro hp; simp at hp
  dsimp only
  rcases hA : pyIntChars a with _ | x
  · intro hp; simp at hp
  rcases hB : pyIntChars b with _ | y
  · intro hp; simp at hp
  rcases hC : pyIntChars c with _ | z
  · intro hp; simp at hp
  dsimp only
  intro hp
  have hxyz : x = M ∧ y = m ∧ z = p := by
    injection hp with hp'
    simpa [Prod.ext_iff] using hp'
  refine ⟨?_, ?_, ?_⟩
  · exact hxyz.1 ▸ pyIntChars_nonneg hA (hseg a (List.getElem?_mem h0))
  · exact hxyz.2.1 ▸ pyIntChars_nonneg hB (hseg b (List.getElem?_mem h1))
  · exact hxyz.2.2 ▸ pyIntChars_nonneg hC (hseg c (List.getElem?_mem h2))

theorem C5_nonneg_witness :
    parse_version "1.2.3" = some (1, 2, 3) ∧ ('-' ∉ String.data "1.2.3") ∧
      (0 ≤ (1 : Int) ∧ 0 ≤ (2 : Int) ∧ 0 ≤ (3 : Int)) :=
  ⟨by decide, by decide, C5_nonneg_amended "1.2.3" 1 2 3 (by decide) (by decide)⟩

/-- C6 counterexample: with a dirty tree, every command succeeding, and the
user declining both the commit offer and the continue-without-committing
confirmation, the process exits with code 1 — not 0 as the claim states
for a decline at any confirmation prompt. -/
theorem C6_exitCode_cex :
    (main dirtyDeclineEnv).1 = 1 ∧
      Event.prompt "Continue without committing?" ∈ (main dirtyDeclineEnv).2 := by
  decide

/-- C7: if either metadata file is missing, the run aborts with exit code 1
before any prompt, git command, or file write (the effect trace is empty). -/
theorem C7_missingFile_aborts (e : Env)
    (h : e.packageJsonExists = false ∨ e.tauriConfExists = false) :
    main e = (1, []) := by
  rcases h with h | h
  · simp [main, h]
  · by_cases h2 : e.packageJsonExists = false
    · simp [main, h2]
    · simp [main, h, h2]

theorem C7_missingFile_witness :
    (missingTauriEnv.packageJsonExists = false ∨
        missingTauriEnv.tauriConfExists = false) ∧
      main missingTauriEnv = (1, []) :=
  ⟨Or.inr rfl, C7_missingFile_aborts missingTauriEnv (Or.inr rfl)⟩

/-- C8: the tag-creation step behaves exactly as the claim describes: a
pre-existing local tag triggers the delete-and-recreate offer (declining
aborts), local deletion failure aborts, the remote deletion is attempted
best-effort without affecting the outcome, and then the tag is created and
pushed, aborting on creation or push failure. -/
theorem C8_tag_step (version : String) (e : Env) :
    git_create_and_push_tag version e = tagStepSpec version e := by
  unfold git_create_and_push_tag tagCreatePush tagStepSpec
  cases h1 : e.tagListSuccess <;>
  cases h2 : e.tagListOutput == "" <;>
  cases h3 : e.answerRecreate <;>
  cases h4 : e.tagDeleteSuccess <;>
  cases h5 : e.tagCreateSuccess <;>
  simp_all [bne, beq_iff_eq, beq_eq_false_iff_ne]

/-- C9: once the update step is reached and both file updates succeed, the
run stages exactly the two metadata files (one `git add` with exactly those
two paths), commits with the fixed message `"chore: release v{version}"`
for the new version, and a staging or commit failure makes the run exit
with code 1. -/
theorem C9_commit_step (e : Env) (M m p : Int)
    (h1 : e.packageJsonExists = true) (h2 : e.tauriConfExists = true)
    (h3 : (check_git_status e).1 = true) (h4 : (check_git_remote e).1 = true)
    (h5 : parse_version (get_current_version e.versionField) = some (M, m, p))
    (h6 : e.answerProceed = true) (h7 : e.updatePackageOk = true)
    (h8 : e.updateTauriOk = true) :
    Event.git ["git", "add", package_json_path, tauri_conf_path] ∈ (main e).2 ∧
      (e.addFilesSuccess = true →
        Event.git ["git", "commit", "-m",
          "chore: release v" ++
            format_version (incrementVersion e.directiveChoice M m p).1
              (incrementVersion e.directiveChoice M m p).2.1
              (incrementVersion e.directiveChoice M m p).2.2] ∈ (main e).2) ∧
      ((e.addFilesSuccess && e.commitReleaseSuccess) = false → (main e).1 = 1) := by
  simp only [main, update_json_version, h1, h2, h3, h4, h5, h6, h7, h8]
  norm_num
  cases hA : e.addFilesSuccess <;> cases hB : e.commitReleaseSuccess <;>
    simp_all [git_add_and_commit, apply_ite, List.mem_append]

theorem C9_commit_step_witness :
    ((check_git_status allGoodEnv).1 = true) ∧
      ((check_git_remote allGoodEnv).1 = true) ∧
      (parse_version (get_current_version allGoodEnv.versionField) = some (1, 2, 3)) ∧
      (Event.git ["git", "add", package_json_path, tauri_conf_path] ∈
          (main allGoodEnv).2 ∧
        (allGoodEnv.addFilesSuccess = true →
          Event.git ["git", "commit", "-m",
            "chore: release v" ++
              format_version (incrementVersion allGoodEnv.directiveChoice 1 2 3).1
                (incrementVersion allGoodEnv.directiveChoice 1 2 3).2.1
                (incrementVersion allGoodEnv.directiveChoice 1 2 3).2.2] ∈
            (main allGoodEnv).2) ∧
        ((allGoodEnv.addFilesSuccess && allGoodEnv.commitReleaseSuccess) = false →
          (main allGoodEnv).1 = 1)) :=
  ⟨by decide, by decide, by decide,
    C9_commit_step allGoodEnv 1 2 3 rfl rfl (by decide) (by decide) (by decide)
      rfl rfl rfl⟩

/-- C10: when `package.json` is valid JSON without a `"version"` field, the
current version defaults to `"0.0.0"`, which parses, and the run proceeds
to the increment prompt rather than aborting; the version-read step fails
only when a `"version"` string actually present fails to parse. -/
theorem C10_default_version :
    (∀ e : Env, e.versionField = Option.none →
        get_current_version e.versionField = "0.0.0" ∧
          parse_version (get_current_version e.versionField) = some (0, 0, 0)) ∧
      (∀ e : Env, parse_version (get_current_version e.versionField) = Option.none →
        ∃ s : String, e.versionField = some s ∧ parse_version s = Option.none) ∧
      (∀ e : Env, e.versionField = Option.none → e.packageJsonExists = true →
        e.tauriConfExists = true → (check_git_status e).1 = true →
        (check_git_remote e).1 = true →
        Event.prompt "Enter your choice (0-3):" ∈ (main e).2) := by
  refine ⟨?_, ?_, ?_⟩
  · intro e h
    rw [h]
    exact ⟨rfl, by decide⟩
  · intro e h
    cases hv : e.versionField with
    | none =>
      rw [hv] at h
      exact absurd h (by decide)
    | some s =>
      exact ⟨s, rfl, by rw [hv] at h; exact h⟩
  · intro e hv h1 h2 h3 h4
    have h5 : parse_version (get_current_version e.versionField) = some (0, 0, 0) := by
      rw [hv]; decide
    simp only [main, update_json_version, h1, h2, h3, h4, h5]
    norm_num
    cases hP : e.answerProceed <;>
    cases hU1 : e.updatePackageOk <;>
    cases hU2 : e.updateTauriOk <;>
    cases hA : (git_add_and_commit [package_json_path, tauri_conf_path]
        (format_version (incrementVersion e.directiveChoice 0 0 0).1
          (incrementVersion e.directiveChoice 0 0 0).2.1
          (incrementVersion e.directiveChoice 0 0 0).2.2) e).1 <;>
      simp_all [apply_ite, List.mem_append]

theorem C10_default_version_witness :
    (get_current_version noVersionEnv.versionField = "0.0.0" ∧
        parse_version (get_current_version noVersionEnv.versionField) = some (0, 0, 0)) ∧
      (∃ s : String, badVersionEnv.versionField = some s ∧
        parse_version s = Option.none) ∧
      Event.prompt "Enter your choice (0-3):" ∈ (main noVersionEnv).2 :=
  ⟨C10_default_version.1 noVersionEnv rfl,
    C10_default_version.2.1 badVersionEnv (by decide),
    C10_default_version.2.2 noVersionEnv rfl rfl rfl (by decide) (by decide)⟩

end HiveCAD
